import Mathlib

/-!
Shallow embedding of the ledger/reconciliation core of the OCTO fund
dashboard (src/app.py). Python floats are modelled as rationals; store
rows are Lean structures. Numeric fields that the source reads with the
defaulting idioms `row.get("k") or 0` / `row.get("k", 0)` are modelled
as `Option Rat` together with `orZero`, which applies the same default.
-/

namespace Octo

/-- Defaulting of a possibly missing numeric field, as in the source
idioms `x.get("k") or 0` and `x.get("k", 0)` (a missing or null value
becomes `0`). -/
def orZero (x : Option ℚ) : ℚ := x.getD 0

/-- Row of the `investors` table (src/app.py reads `id`, `name` directly
and `commitment` through `inv.get("commitment", 0)`). -/
structure Investor where
  id : Nat
  name : String
  commitment : Option ℚ
deriving DecidableEq

/-- Row of the `lp_calls` table: a master-fund-level pro-rata call. -/
structure LPCall where
  id : Nat
  call_date : String
  call_pct : ℚ
deriving DecidableEq

/-- Row of the `lp_payments` table: sparse paid/unpaid matrix cell. -/
structure LPPayment where
  id : Nat
  lp_call_id : Nat
  investor_id : Nat
  is_paid : Bool
deriving DecidableEq

/-- Predicate for the payment-row lookups of src/app.py
(`p["lp_call_id"] == c["id"] and p["investor_id"] == inv["id"]`). -/
def matchesCell (lpCallId invId : Nat) (p : LPPayment) : Bool :=
  p.lp_call_id == lpCallId && p.investor_id == invId

/-- The lookup `next((p for p in payments if p["lp_call_id"] == c["id"]
and p["investor_id"] == inv["id"]), None)` used throughout src/app.py
(lines 316, 723, 885, 947). -/
def findPayment (payments : List LPPayment) (lpCallId invId : Nat) : Option LPPayment :=
  payments.find? (matchesCell lpCallId invId)

/-- Truthiness of `payment and payment["is_paid"]` (src/app.py lines 724,
948) and of `payment["is_paid"] if payment else False` (line 886): a
missing LPPayment row counts as unpaid. -/
def payment_is_paid (payments : List LPPayment) (c : LPCall) (inv : Investor) : Bool :=
  match findPayment payments c.id inv.id with
  | some p => p.is_paid
  | none => false

/-- Accumulation `total_fund_commitment += inv.get("commitment", 0)`
(src/app.py lines 872-876; same as the comprehension sum at line 708). -/
def total_fund_commitment (investors : List Investor) : ℚ :=
  investors.foldl (fun acc inv => acc + orZero inv.commitment) 0

/-- The loop of src/app.py lines 945-949: `paid_commit += inv.get("commitment", 0)`
for each investor whose payment row for the call exists and is paid. -/
def paid_commit (payments : List LPPayment) (investors : List Investor) (c : LPCall) : ℚ :=
  investors.foldl
    (fun acc inv =>
      if payment_is_paid payments c inv then acc + orZero inv.commitment else acc) 0

/-- src/app.py line 943: `total_called_amount = total_fund_commitment * call_pct`
with `call_pct = c["call_pct"] / 100.0` (line 942). -/
def total_called_amount (investors : List Investor) (c : LPCall) : ℚ :=
  total_fund_commitment investors * (c.call_pct / 100)

/-- src/app.py line 951: `total_paid_amount = paid_commit * call_pct`. -/
def total_paid_amount (payments : List LPPayment) (investors : List Investor) (c : LPCall) : ℚ :=
  paid_commit payments investors c * (c.call_pct / 100)

/-- src/app.py line 952: `outstanding = total_called_amount - total_paid_amount`. -/
def outstanding_balance (payments : List LPPayment) (investors : List Investor) (c : LPCall) : ℚ :=
  total_called_amount investors c - total_paid_amount payments investors c

/-- Generic form of the conditional-accumulation loops of src/app.py. -/
theorem foldl_cond_add {α : Type} (p : α → Bool) (f : α → ℚ) (l : List α) (a : ℚ) :
    l.foldl (fun acc x => if p x then acc + f x else acc) a
      = a + ((l.filter p).map f).sum := by
  induction l generalizing a with
  | nil => simp
  | cons x t ih =>
    by_cases h : p x
    · simp [List.filter_cons, h, ih]; ring
    · simp [List.filter_cons, h, ih]

/-- Unconditional-accumulation loops of src/app.py as a sum. -/
theorem foldl_add {α : Type} (f : α → ℚ) (l : List α) (a : ℚ) :
    l.foldl (fun acc x => acc + f x) a = a + (l.map f).sum := by
  induction l generalizing a with
  | nil => simp
  | cons x t ih => simp [ih]; ring

theorem total_fund_commitment_eq (investors : List Investor) :
    total_fund_commitment investors
      = (investors.map (fun inv => orZero inv.commitment)).sum := by
  unfold total_fund_commitment
  rw [foldl_add]; ring

theorem paid_commit_eq (payments : List LPPayment) (investors : List Investor) (c : LPCall) :
    paid_commit payments investors c
      = ((investors.filter (fun inv => payment_is_paid payments c inv)).map
          (fun inv => orZero inv.commitment)).sum := by
  unfold paid_commit
  rw [foldl_cond_add]; ring

/-- C1: for every LPCall c with p = call_pct/100 and T the sum of all
investor commitments, requiredTotal(c) = T * p, paidTotal(c) = (sum of
commitments of investors whose payment row for c exists and is paid) * p,
outstanding(c) = requiredTotal(c) - paidTotal(c); a missing LPPayment row
counts as unpaid; and in the concrete scenario with investors A
(1,000,000) and B (2,000,000), call_pct = 10 and only B paid, the
aggregates are 300,000 / 200,000 / 100,000. -/
theorem C1_reconciliation_aggregates :
    (∀ (investors : List Investor) (payments : List LPPayment) (c : LPCall),
        total_called_amount investors c
            = (investors.map (fun inv => orZero inv.commitment)).sum * (c.call_pct / 100)
          ∧ total_paid_amount payments investors c
              = ((investors.filter (fun inv => payment_is_paid payments c inv)).map
                  (fun inv => orZero inv.commitment)).sum * (c.call_pct / 100)
          ∧ outstanding_balance payments investors c
              = total_called_amount investors c - total_paid_amount payments investors c)
    ∧ (∀ (payments : List LPPayment) (c : LPCall) (inv : Investor),
        findPayment payments c.id inv.id = none → payment_is_paid payments c inv = false)
    ∧ (total_called_amount
          [⟨1, "A", some 1000000⟩, ⟨2, "B", some 2000000⟩] ⟨1, "2024-01-01", 10⟩ = 300000
        ∧ total_paid_amount [⟨1, 1, 2, true⟩]
            [⟨1, "A", some 1000000⟩, ⟨2, "B", some 2000000⟩] ⟨1, "2024-01-01", 10⟩ = 200000
        ∧ outstanding_balance [⟨1, 1, 2, true⟩]
            [⟨1, "A", some 1000000⟩, ⟨2, "B", some 2000000⟩] ⟨1, "2024-01-01", 10⟩ = 100000) := by
  refine ⟨fun investors payments c => ⟨?_, ?_, ?_⟩, fun payments c inv h => ?_, ?_⟩
  · rw [total_called_amount, total_fund_commitment_eq]
  · rw [total_paid_amount, paid_commit_eq]
  · rfl
  · unfold payment_is_paid
    rw [h]
  · have hA : payment_is_paid [⟨1, 1, 2, true⟩] ⟨1, "2024-01-01", 10⟩
        ⟨1, "A", some 1000000⟩ = false := by decide
    have hB : payment_is_paid [⟨1, 1, 2, true⟩] ⟨1, "2024-01-01", 10⟩
        ⟨2, "B", some 2000000⟩ = true := by decide
    refine ⟨?_, ?_, ?_⟩ <;>
      norm_num [total_called_amount, total_paid_amount, outstanding_balance,
        total_fund_commitment, paid_commit, List.foldl, hA, hB, orZero]

/-- Witness for C1 at a concrete input: the lookup for investor A finds
no row, so A counts as unpaid. -/
theorem C1_reconciliation_aggregates_witness :
    findPayment [⟨1, 1, 2, true⟩] (1 : Nat) (1 : Nat) = none
      ∧ payment_is_paid [⟨1, 1, 2, true⟩] ⟨1, "2024-01-01", 10⟩ ⟨1, "A", some 1000000⟩ = false :=
  ⟨by decide, C1_reconciliation_aggregates.2.1 [⟨1, 1, 2, true⟩]
      ⟨1, "2024-01-01", 10⟩ ⟨1, "A", some 1000000⟩ (by decide)⟩

/-- Row of the `funds` table (the fields the ledger computations read). -/
structure Fund where
  id : Nat
  name : String
  commitment : Option ℚ
  currency : String
  status : String
deriving DecidableEq

/-- Row of the `capital_calls` table (the fields the ledger computations
read; `amount` is read through `c.get("amount") or 0`). -/
structure CapitalCall where
  id : Nat
  fund_id : Nat
  call_number : Nat
  amount : Option ℚ
  is_future : Bool
deriving DecidableEq

/-- The per-fund filter of `get_capital_calls` (src/app.py line 374):
`[d for d in data if d["fund_id"] == fund_id]`. -/
def get_capital_calls (calls : List CapitalCall) (fund_id : Nat) : List CapitalCall :=
  calls.filter (fun c => c.fund_id == fund_id)

/-- src/app.py line 1100 (show_fund_detail):
`total_called = sum(c.get("amount") or 0 for c in calls if not c.get("is_future"))`. -/
def total_called (calls : List CapitalCall) : ℚ :=
  calls.foldl (fun acc c => if c.is_future then acc else acc + orZero c.amount) 0

/-- src/app.py line 667 (show_overview, Funds Status table):
`total_called = sum(c.get("amount") or 0 for c in calls)` - note the
absence of an is_future filter at this site. -/
def total_called_overview (calls : List CapitalCall) : ℚ :=
  calls.foldl (fun acc c => acc + orZero c.amount) 0

/-- src/app.py lines 1098 and 1102: `commitment = float(fund.get("commitment") or 0)`;
`uncalled = commitment - total_called`. -/
def uncalledOf (fund : Fund) (calls : List CapitalCall) : ℚ :=
  orZero fund.commitment - total_called calls

/-- The called-percentage guard used at src/app.py lines 669 and 1109:
`f"{total_called/commitment*100:.1f}%" if commitment > 0 else "-"`;
`none` models the em-dash placeholder, so the division is only formed
under the positivity guard. -/
def called_pct_display (commitment tc : ℚ) : Option ℚ :=
  if commitment > 0 then some (tc / commitment * 100) else none

theorem total_called_eq (calls : List CapitalCall) :
    total_called calls
      = ((calls.filter (fun c => !c.is_future)).map (fun c => orZero c.amount)).sum := by
  unfold total_called
  have h : (fun (acc : ℚ) (c : CapitalCall) => if c.is_future then acc else acc + orZero c.amount)
      = fun acc c => if (!c.is_future) then acc + orZero c.amount else acc := by
    funext acc c
    cases c.is_future <;> simp
  rw [h, foldl_cond_add]; ring

theorem total_called_overview_eq (calls : List CapitalCall) :
    total_called_overview calls = (calls.map (fun c => orZero c.amount)).sum := by
  unfold total_called_overview
  rw [foldl_add]; ring

/-- C2 counterexample: a CapitalCall marked is_future with amount 100 is
included in the overview total-called computation (src/app.py line 667),
which therefore differs from the sum over non-future calls that the claim
prescribes for every place total called capital is computed. -/
theorem C2_counterexample :
    total_called_overview [⟨1, 1, 1, some 100, true⟩] = 100
      ∧ total_called [⟨1, 1, 1, some 100, true⟩] = 0
      ∧ total_called_overview [⟨1, 1, 1, some 100, true⟩]
          ≠ ((([⟨1, 1, 1, some 100, true⟩] :
                List CapitalCall).filter (fun c => !c.is_future)).map
              (fun c => orZero c.amount)).sum := by
  refine ⟨?_, ?_, ?_⟩ <;>
    norm_num [total_called_overview, total_called, List.foldl, orZero]

/-- C2 amended: in show_fund_detail, totalCalled(fundId) equals the sum
of the amounts of the non-future capital calls of the fund, so an is_future
call is excluded there; but the Funds Status table of show_overview computes
total called as the sum of all call amounts of the fund, including
is_future ones, so the exclusion does not hold in every place. -/
theorem C2_total_called_amended :
    (∀ (calls : List CapitalCall) (fid : Nat),
        total_called (get_capital_calls calls fid)
          = (((get_capital_calls calls fid).filter (fun c => !c.is_future)).map
              (fun c => orZero c.amount)).sum)
    ∧ (∀ (calls : List CapitalCall) (fid : Nat),
        total_called_overview (get_capital_calls calls fid)
          = ((get_capital_calls calls fid).map (fun c => orZero c.amount)).sum) :=
  ⟨fun _calls _fid => total_called_eq _, fun _calls _fid => total_called_overview_eq _⟩

/-- An insert (src/app.py lines 1298-1304) or a delete by id (line 1226)
on the capital_calls table. -/
inductive CallOp where
  | insert (c : CapitalCall)
  | delete (id : Nat)

def applyCallOp (calls : List CapitalCall) : CallOp → List CapitalCall
  | .insert c => calls ++ [c]
  | .delete i => calls.filter (fun c => c.id != i)

def applyCallOps (ops : List CallOp) (calls : List CapitalCall) : List CapitalCall :=
  ops.foldl applyCallOp calls

/-- C3: after any sequence of capital-call inserts and deletes the
uncalled balance equals commitment minus the sum of non-future call
amounts; there is no floor at zero (an over-called fund goes negative);
and Scenario A: commitment 1,714,286 with one realized call of 292,670
yields totalCalled 292,670, uncalled 1,421,616, and a called percentage
that renders as 17.1% at one decimal. -/
theorem C3_uncalled_balance :
    (∀ (fund : Fund) (ops : List CallOp),
        uncalledOf fund (applyCallOps ops [])
          = orZero fund.commitment
            - (((applyCallOps ops []).filter (fun c => !c.is_future)).map
                (fun c => orZero c.amount)).sum)
    ∧ uncalledOf ⟨1, "Over", some 100, "USD", "active"⟩ [⟨1, 1, 1, some 150, false⟩] = -50
    ∧ total_called [⟨1, 1, 1, some 292670, false⟩] = 292670
    ∧ uncalledOf ⟨1, "A", some 1714286, "USD", "active"⟩ [⟨1, 1, 1, some 292670, false⟩]
        = 1421616
    ∧ round (total_called [⟨1, 1, 1, some 292670, false⟩] / orZero (some (1714286 : ℚ))
          * 100 * 10) = (171 : ℤ) := by
  refine ⟨fun fund ops => ?_, ?_, ?_, ?_, ?_⟩
  · rw [uncalledOf, total_called_eq]
  · norm_num [uncalledOf, total_called, List.foldl, orZero]
  · norm_num [total_called, List.foldl, orZero]
  · norm_num [uncalledOf, total_called, List.foldl, orZero]
  · have h : total_called [⟨1, 1, 1, some 292670, false⟩] = 292670 := by
      norm_num [total_called, List.foldl, orZero]
    rw [h]
    norm_num [orZero, round_eq]

/-- C8: the called-percentage display divides only under the guard
commitment > 0; a zero (or missing, defaulted-to-zero) commitment renders
the placeholder instead, so the division is never formed. Both display
sites (src/app.py lines 669 and 1109) use this guard. -/
theorem C8_called_pct_guard :
    (∀ commitment tc : ℚ, commitment ≤ 0 → called_pct_display commitment tc = none)
    ∧ (∀ (fund : Fund) (tc : ℚ), fund.commitment = none →
        called_pct_display (orZero fund.commitment) tc = none)
    ∧ (∀ commitment tc : ℚ, 0 < commitment →
        called_pct_display commitment tc = some (tc / commitment * 100)) := by
  refine ⟨fun c tc h => ?_, fun fund tc h => ?_, fun c tc h => ?_⟩
  · simp [called_pct_display, not_lt.mpr h]
  · simp [called_pct_display, h, orZero]
  · simp [called_pct_display, h]

/-- Witness for C8: a fund with commitment 0 renders the placeholder, a
missing commitment renders the placeholder, and a positive commitment
divides. -/
theorem C8_called_pct_guard_witness :
    called_pct_display 0 292670 = none
      ∧ called_pct_display (orZero (Fund.commitment ⟨1, "F", none, "USD", "active"⟩)) 5 = none
      ∧ called_pct_display 200 100 = some 50 := by
  refine ⟨C8_called_pct_guard.1 0 292670 (by norm_num),
    C8_called_pct_guard.2.1 ⟨1, "F", none, "USD", "active"⟩ 5 rfl, ?_⟩
  have h := C8_called_pct_guard.2.2 200 100 (by norm_num)
  rw [h]
  norm_num

/-- src/app.py line 1066 (show_portfolio, add-fund form):
`final_commit = new_commitment * 1_000_000 if new_commitment < 1000 else new_commitment`. -/
def final_commit (new_commitment : ℚ) : ℚ :=
  if new_commitment < 1000 then new_commitment * 1000000 else new_commitment

/-- src/app.py line 1182 (show_fund_detail, edit form): the commitment is
stored exactly as entered, with no rescaling. -/
def update_fund_commitment (new_commitment : ℚ) : ℚ :=
  new_commitment

/-- C10: at fund creation the stored commitment is the entered value
rescaled by 1,000,000 when it is below 1000 and unchanged otherwise; the
edit form stores the entered value unchanged. -/
theorem C10_millions_heuristic :
    (∀ x : ℚ, x < 1000 → final_commit x = x * 1000000)
    ∧ (∀ x : ℚ, 1000 ≤ x → final_commit x = x)
    ∧ (∀ x : ℚ, update_fund_commitment x = x) := by
  refine ⟨fun x h => ?_, fun x h => ?_, fun x => rfl⟩
  · simp [final_commit, h]
  · simp [final_commit, not_lt.mpr h]

/-- Witness for C10: 500 entered becomes 500,000,000; 2,000,000 entered
is stored unchanged. -/
theorem C10_millions_heuristic_witness :
    final_commit 500 = 500 * 1000000 ∧ final_commit 2000000 = 2000000 :=
  ⟨C10_millions_heuristic.1 500 (by norm_num),
    C10_millions_heuristic.2.1 2000000 (by norm_num)⟩

/-- One row of the FOF Collection Summary table (src/app.py lines
941-959): per LPCall, (Total Required, Total Received, Outstanding). -/
def summary_row (payments : List LPPayment) (investors : List Investor) (c : LPCall) :
    ℚ × ℚ × ℚ :=
  (total_called_amount investors c, total_paid_amount payments investors c,
    outstanding_balance payments investors c)

/-- The summary_data list built by the loop over lp_calls (src/app.py
lines 940-959). -/
def summary_data (payments : List LPPayment) (investors : List Investor)
    (lp_calls : List LPCall) : List (ℚ × ℚ × ℚ) :=
  lp_calls.map (summary_row payments investors)

/-- The payment-matrix row of one investor (src/app.py lines 882-886):
per LPCall, `payment["is_paid"] if payment else False`. -/
def matrix_row (payments : List LPPayment) (lp_calls : List LPCall) (inv : Investor) :
    List Bool :=
  lp_calls.map (fun c => payment_is_paid payments c inv)

/-- The LP-call delete of src/app.py line 1009:
`sb.table("lp_calls").delete().eq("id", c["id"])` - only the lp_calls row
is removed; lp_payments rows are left behind. -/
def deleteLpCall (lp_calls : List LPCall) (i : Nat) : List LPCall :=
  lp_calls.filter (fun c => c.id != i)

theorem findPayment_filter_ne (payments : List LPPayment) (did cid invId : Nat)
    (h : cid ≠ did) :
    findPayment (payments.filter (fun p => p.lp_call_id != did)) cid invId
      = findPayment payments cid invId := by
  induction payments with
  | nil => rfl
  | cons p t ih =>
    unfold findPayment at ih ⊢
    by_cases hp : p.lp_call_id = did
    · have hne : p.lp_call_id ≠ cid := fun hc => h ((hp.symm.trans hc).symm)
      have hm : matchesCell cid invId p = false := by
        simp only [matchesCell, Bool.and_eq_false_iff]
        left
        simpa using hne
      simp [List.filter_cons, hp, List.find?_cons, hm, ih]
    · by_cases hm : matchesCell cid invId p
      · simp [List.filter_cons, hp, List.find?_cons, hm]
      · simp [List.filter_cons, hp, List.find?_cons, hm, ih]

theorem payment_is_paid_filter_ne (payments : List LPPayment) (did : Nat) (c : LPCall)
    (inv : Investor) (h : c.id ≠ did) :
    payment_is_paid (payments.filter (fun p => p.lp_call_id != did)) c inv
      = payment_is_paid payments c inv := by
  unfold payment_is_paid
  rw [findPayment_filter_ne payments did c.id inv.id h]

theorem mem_deleteLpCall_ne (lp_calls : List LPCall) (did : Nat) (c : LPCall)
    (hc : c ∈ deleteLpCall lp_calls did) : c.id ≠ did := by
  unfold deleteLpCall at hc
  have := (List.mem_filter.mp hc).2
  simpa using this

/-- C6: after an LPCall is deleted, every aggregate recomputed over the
remaining LPCalls - requiredTotal, paidTotal, outstanding (the summary
table) and the payment matrix - is unchanged by the orphan LPPayment rows
whose lp_call_id is the deleted call: filtering those orphans out of the
payments list leaves every aggregate identical, so the payments of the
deleted call are ignored everywhere. -/
theorem C6_delete_lp_call_orphans_ignored :
    ∀ (payments : List LPPayment) (investors : List Investor)
      (lp_calls : List LPCall) (did : Nat),
      summary_data payments investors (deleteLpCall lp_calls did)
          = summary_data (payments.filter (fun p => p.lp_call_id != did)) investors
              (deleteLpCall lp_calls did)
        ∧ ∀ inv : Investor,
            matrix_row payments (deleteLpCall lp_calls did) inv
              = matrix_row (payments.filter (fun p => p.lp_call_id != did))
                  (deleteLpCall lp_calls did) inv := by
  intro payments investors lp_calls did
  constructor
  · unfold summary_data
    apply List.map_congr_left
    intro c hc
    have hne : c.id ≠ did := mem_deleteLpCall_ne lp_calls did c hc
    have hpip : ∀ inv : Investor,
        payment_is_paid (payments.filter (fun p => p.lp_call_id != did)) c inv
          = payment_is_paid payments c inv :=
      fun inv => payment_is_paid_filter_ne payments did c inv hne
    unfold summary_row outstanding_balance total_paid_amount paid_commit
    simp only [hpip]
  · intro inv
    unfold matrix_row
    apply List.map_congr_left
    intro c hc
    exact (payment_is_paid_filter_ne payments did c inv
      (mem_deleteLpCall_ne lp_calls did c hc)).symm

/-- Row of the `distributions` table (the fields the cascade touches). -/
structure Distribution where
  id : Nat
  fund_id : Nat
  amount : Option ℚ
deriving DecidableEq

/-- Row of the `quarterly_reports` table (src/app.py upsert payload
fields plus the row id). -/
structure QuarterlyReport where
  id : Nat
  fund_id : Nat
  year : Nat
  quarter : Nat
  report_date : String
  nav : ℚ
  tvpi : ℚ
  dpi : ℚ
  rvpi : ℚ
  irr : ℚ
  notes : String
deriving DecidableEq

/-- The four tables touched by the fund-delete cascade. -/
structure DB where
  funds : List Fund
  capital_calls : List CapitalCall
  distributions : List Distribution
  quarterly_reports : List QuarterlyReport

/-- src/app.py line 1130: `sb.table("capital_calls").delete().eq("fund_id", fund["id"])`. -/
def delete_capital_calls_of (db : DB) (fid : Nat) : DB :=
  { db with capital_calls := db.capital_calls.filter (fun c => c.fund_id != fid) }

/-- src/app.py line 1131: `sb.table("distributions").delete().eq("fund_id", fund["id"])`. -/
def delete_distributions_of (db : DB) (fid : Nat) : DB :=
  { db with distributions := db.distributions.filter (fun d => d.fund_id != fid) }

/-- src/app.py line 1132: `sb.table("quarterly_reports").delete().eq("fund_id", fund["id"])`. -/
def delete_quarterly_reports_of (db : DB) (fid : Nat) : DB :=
  { db with quarterly_reports := db.quarterly_reports.filter (fun r => r.fund_id != fid) }

/-- src/app.py line 1133: `sb.table("funds").delete().eq("id", fund["id"])`. -/
def delete_fund_row (db : DB) (fid : Nat) : DB :=
  { db with funds := db.funds.filter (fun f => f.id != fid) }

/-- The manual ordered cascade of src/app.py lines 1130-1133: children
first (capital calls, distributions, quarterly reports), then the fund
row itself. -/
def deleteFundCascade (db : DB) (fid : Nat) : DB :=
  delete_fund_row
    (delete_quarterly_reports_of
      (delete_distributions_of
        (delete_capital_calls_of db fid) fid) fid) fid

/-- C7: when the whole fund-delete sequence succeeds, no CapitalCall,
Distribution, or QuarterlyReport row of the deleted fund remains in any
of the three child tables, and the fund row itself is gone; rows of other
funds are untouched. -/
theorem C7_fund_delete_cascade :
    ∀ (db : DB) (fid : Nat),
      ((deleteFundCascade db fid).capital_calls.all (fun c => c.fund_id != fid)
          ∧ (deleteFundCascade db fid).distributions.all (fun d => d.fund_id != fid)
          ∧ (deleteFundCascade db fid).quarterly_reports.all (fun r => r.fund_id != fid)
          ∧ (deleteFundCascade db fid).funds.all (fun f => f.id != fid))
        ∧ ((deleteFundCascade db fid).capital_calls
              = db.capital_calls.filter (fun c => c.fund_id != fid)
            ∧ (deleteFundCascade db fid).distributions
              = db.distributions.filter (fun d => d.fund_id != fid)
            ∧ (deleteFundCascade db fid).quarterly_reports
              = db.quarterly_reports.filter (fun r => r.fund_id != fid)
            ∧ (deleteFundCascade db fid).funds
              = db.funds.filter (fun f => f.id != fid)) := by
  intro db fid
  refine ⟨⟨?_, ?_, ?_, ?_⟩, rfl, rfl, rfl, rfl⟩ <;>
    · simp only [List.all_eq_true, deleteFundCascade, delete_fund_row,
        delete_quarterly_reports_of, delete_distributions_of, delete_capital_calls_of]
      intro x hx
      exact (List.mem_filter.mp hx).2

/-- Result of one store read: a network/store failure, or a payload whose
`data` field may be null or hold the rows. -/
def StoreResult (α : Type) : Type := Except String (Option (List α))

/-- The shared shape of every `fetch_all_*` read in src/app.py (lines
359-445): `try: return sb.table(t).select("*")...execute().data or []
except: return []` - a thrown store error and a null/empty payload both
become the empty list. -/
def tryFetch {α : Type} (r : StoreResult α) : List α :=
  match r with
  | .error _ => []
  | .ok none => []
  | .ok (some rows) => rows

/-- src/app.py lines 359-362. -/
def fetch_all_funds (r : StoreResult Fund) : List Fund := tryFetch r

/-- src/app.py lines 367-370. -/
def fetch_all_capital_calls (r : StoreResult CapitalCall) : List CapitalCall := tryFetch r

/-- src/app.py lines 377-380. -/
def fetch_all_distributions (r : StoreResult Distribution) : List Distribution := tryFetch r

/-- src/app.py lines 387-390. -/
def fetch_all_quarterly_reports (r : StoreResult QuarterlyReport) : List QuarterlyReport :=
  tryFetch r

/-- src/app.py lines 415-418. -/
def fetch_all_investors (r : StoreResult Investor) : List Investor := tryFetch r

/-- src/app.py lines 423-426. -/
def fetch_all_lp_calls (r : StoreResult LPCall) : List LPCall := tryFetch r

/-- src/app.py lines 431-434. -/
def fetch_all_lp_payments (r : StoreResult LPPayment) : List LPPayment := tryFetch r

/-- C9: every read over the store returns a plain (possibly empty) list:
a store failure yields [], a null/no-rows payload yields [], and a
successful payload yields its rows - for each of the seven entity reads,
so the caller never observes an exception. -/
theorem C9_reads_never_raise :
    (∀ e, fetch_all_funds (.error e) = [] ∧ fetch_all_capital_calls (.error e) = []
      ∧ fetch_all_distributions (.error e) = []
      ∧ fetch_all_quarterly_reports (.error e) = []
      ∧ fetch_all_investors (.error e) = [] ∧ fetch_all_lp_calls (.error e) = []
      ∧ fetch_all_lp_payments (.error e) = [])
    ∧ (fetch_all_funds (.ok none) = [] ∧ fetch_all_capital_calls (.ok none) = []
      ∧ fetch_all_distributions (.ok none) = []
      ∧ fetch_all_quarterly_reports (.ok none) = []
      ∧ fetch_all_investors (.ok none) = [] ∧ fetch_all_lp_calls (.ok none) = []
      ∧ fetch_all_lp_payments (.ok none) = [])
    ∧ (∀ (rows : List Fund), fetch_all_funds (.ok (some rows)) = rows)
    ∧ (∀ (rows : List CapitalCall), fetch_all_capital_calls (.ok (some rows)) = rows)
    ∧ (∀ (rows : List Distribution), fetch_all_distributions (.ok (some rows)) = rows)
    ∧ (∀ (rows : List QuarterlyReport), fetch_all_quarterly_reports (.ok (some rows)) = rows)
    ∧ (∀ (rows : List Investor), fetch_all_investors (.ok (some rows)) = rows)
    ∧ (∀ (rows : List LPCall), fetch_all_lp_calls (.ok (some rows)) = rows)
    ∧ (∀ (rows : List LPPayment), fetch_all_lp_payments (.ok (some rows)) = rows) :=
  ⟨fun _ => ⟨rfl, rfl, rfl, rfl, rfl, rfl, rfl⟩,
    ⟨rfl, rfl, rfl, rfl, rfl, rfl, rfl⟩,
    fun _ => rfl, fun _ => rfl, fun _ => rfl, fun _ => rfl,
    fun _ => rfl, fun _ => rfl, fun _ => rfl⟩

/-- Natural key of an LPPayment row: (lp_call_id, investor_id). -/
def pairKey (p : LPPayment) : Nat × Nat := (p.lp_call_id, p.investor_id)

/-- Keys of all payment rows, in order. -/
def pairsOf (l : List LPPayment) : List (Nat × Nat) := l.map pairKey

/-- At most one LPPayment row per (lp_call_id, investor_id) pair. -/
def NoDupPairs (l : List LPPayment) : Prop := (pairsOf l).Nodup

instance (l : List LPPayment) : Decidable (NoDupPairs l) := by
  unfold NoDupPairs; infer_instance

/-- The per-cell body of the payment-matrix save (src/app.py lines
912-925): the choice of write is made against `snapshot`, the payments
list read before the loop; the write is applied to the store state `db`.
The second component counts store writes (0 or 1). -/
def saveCell (snapshot db : List LPPayment) (freshId lpCallId invId : Nat)
    (isPaid : Bool) : List LPPayment × Nat :=
  match snapshot.filter (matchesCell lpCallId invId) with
  | [] => (db ++ [⟨freshId, lpCallId, invId, isPaid⟩], 1)
  | e :: _ =>
    if e.is_paid != isPaid then
      (db.map (fun p => if p.id == e.id then { p with is_paid := isPaid } else p), 1)
    else (db, 0)

/-- setPaymentStatus(lpCallId, investorId, isPaid): one cell saved
against the current state (snapshot and store state coincide). -/
def setPaymentStatus (payments : List LPPayment) (freshId lpCallId invId : Nat)
    (isPaid : Bool) : List LPPayment × Nat :=
  saveCell payments payments freshId lpCallId invId isPaid

/-- The batch save loop over the edited grid (src/app.py lines 911-925):
each cell is saved with `saveCell` against the shared pre-loop snapshot;
the second component is the total number of store writes. -/
def batchSave (snapshot : List LPPayment) (db : List LPPayment) (nextId : Nat) :
    List (Nat × Nat × Bool) → List LPPayment × Nat
  | [] => (db, 0)
  | cl :: rest =>
    let s := saveCell snapshot db nextId cl.1 cl.2.1 cl.2.2
    let r := batchSave snapshot s.1 (nextId + 1) rest
    (r.1, s.2 + r.2)

/-- The stored paid flag of a cell: is_paid of the first row matching the
pair, if any row exists. -/
def storedStatus (l : List LPPayment) (lpCallId invId : Nat) : Option Bool :=
  (findPayment l lpCallId invId).map LPPayment.is_paid

theorem find?_eq_head?_filter {α : Type} (p : α → Bool) (l : List α) :
    l.find? p = (l.filter p).head? := by
  induction l with
  | nil => rfl
  | cons a t ih =>
    cases h : p a with
    | true => rw [List.find?_cons_of_pos _ h, List.filter_cons_of_pos h, List.head?_cons]
    | false =>
      rw [List.find?_cons_of_neg _ (by simp [h]), List.filter_cons_of_neg (by simp [h]), ih]

theorem findPayment_eq_head (payments : List LPPayment) (c i : Nat) :
    findPayment payments c i = (payments.filter (matchesCell c i)).head? :=
  find?_eq_head?_filter _ _

theorem update_preserves_matchesCell (c i eid : Nat) (b : Bool) (q : LPPayment) :
    matchesCell c i (if q.id == eid then { q with is_paid := b } else q)
      = matchesCell c i q := by
  cases h : q.id == eid <;> simp [h, matchesCell]

theorem update_preserves_pairKey (eid : Nat) (b : Bool) (q : LPPayment) :
    pairKey (if q.id == eid then { q with is_paid := b } else q) = pairKey q := by
  cases h : q.id == eid <;> simp [h, pairKey]

theorem pairsOf_update (db : List LPPayment) (eid : Nat) (b : Bool) :
    pairsOf (db.map (fun p => if p.id == eid then { p with is_paid := b } else p))
      = pairsOf db := by
  unfold pairsOf
  rw [List.map_map]
  exact List.map_congr_left fun q _ => update_preserves_pairKey eid b q

theorem pairsOf_append_single (db : List LPPayment) (p : LPPayment) :
    pairsOf (db ++ [p]) = pairsOf db ++ [pairKey p] := by
  simp [pairsOf]

theorem mem_pairsOf (l : List LPPayment) (c i : Nat) :
    (c, i) ∈ pairsOf l ↔ ∃ q ∈ l, matchesCell c i q = true := by
  unfold pairsOf pairKey matchesCell
  simp only [List.mem_map, Bool.and_eq_true, beq_iff_eq, Prod.mk.injEq]

theorem pair_not_mem_of_filter_nil (l : List LPPayment) (c i : Nat)
    (hfil : l.filter (matchesCell c i) = []) : (c, i) ∉ pairsOf l := by
  rw [mem_pairsOf]
  rintro ⟨q, hq, hmat⟩
  exact (List.filter_eq_nil_iff.mp hfil q hq) hmat

theorem sps_noop (payments : List LPPayment) (freshId c i : Nat) (b : Bool)
    (p : LPPayment) (h : findPayment payments c i = some p) (hb : p.is_paid = b) :
    setPaymentStatus payments freshId c i b = (payments, 0) := by
  rw [findPayment_eq_head] at h
  cases hfil : payments.filter (matchesCell c i) with
  | nil => rw [hfil] at h; exact absurd h (by simp)
  | cons e rest =>
    rw [hfil] at h
    have he : e = p := by simpa using h
    subst he
    simp [setPaymentStatus, saveCell, hfil, hb]

theorem sps_insert (payments : List LPPayment) (freshId c i : Nat) (b : Bool)
    (h : findPayment payments c i = none) :
    setPaymentStatus payments freshId c i b = (payments ++ [⟨freshId, c, i, b⟩], 1) := by
  rw [findPayment_eq_head] at h
  have hfil : payments.filter (matchesCell c i) = [] := by
    cases hfil : payments.filter (matchesCell c i) with
    | nil => rfl
    | cons e rest => rw [hfil] at h; simp at h
  simp [setPaymentStatus, saveCell, hfil]

theorem sps_update (payments : List LPPayment) (freshId c i : Nat) (b : Bool)
    (p : LPPayment) (h : findPayment payments c i = some p) (hb : p.is_paid ≠ b) :
    setPaymentStatus payments freshId c i b
      = (payments.map (fun q => if q.id == p.id then { q with is_paid := b } else q), 1) := by
  rw [findPayment_eq_head] at h
  cases hfil : payments.filter (matchesCell c i) with
  | nil => rw [hfil] at h; exact absurd h (by simp)
  | cons e rest =>
    rw [hfil] at h
    have he : e = p := by simpa using h
    subst he
    have hcond : (e.is_paid != b) = true := by simpa using hb
    simp [setPaymentStatus, saveCell, hfil, hcond]

theorem sps_stored (payments : List LPPayment) (freshId c i : Nat) (b : Bool) :
    storedStatus (setPaymentStatus payments freshId c i b).1 c i = some b := by
  cases hfil : payments.filter (matchesCell c i) with
  | nil =>
    have hres : (setPaymentStatus payments freshId c i b).1
        = payments ++ [⟨freshId, c, i, b⟩] := by
      simp [setPaymentStatus, saveCell, hfil]
    rw [hres]
    unfold storedStatus findPayment
    rw [List.find?_append]
    have h1 : payments.find? (matchesCell c i) = none := by
      rw [find?_eq_head?_filter, hfil]; rfl
    rw [h1]
    simp [matchesCell]
  | cons e rest =>
    cases hne : e.is_paid != b with
    | false =>
      have hres : (setPaymentStatus payments freshId c i b).1 = payments := by
        simp [setPaymentStatus, saveCell, hfil, hne]
      rw [hres]
      unfold storedStatus findPayment
      rw [find?_eq_head?_filter, hfil]
      have : e.is_paid = b := by simpa using hne
      simp [this]
    | true =>
      have hres : (setPaymentStatus payments freshId c i b).1
          = payments.map (fun q => if q.id == e.id then { q with is_paid := b } else q) := by
        simp [setPaymentStatus, saveCell, hfil, hne]
      rw [hres]
      unfold storedStatus findPayment
      rw [List.find?_map]
      have hpred : (matchesCell c i ∘ fun q =>
          if q.id == e.id then { q with is_paid := b } else q) = matchesCell c i :=
        funext (update_preserves_matchesCell c i e.id b)
      rw [hpred, find?_eq_head?_filter, hfil]
      simp

theorem sps_nodup (payments : List LPPayment) (freshId c i : Nat) (b : Bool)
    (hnd : NoDupPairs payments) :
    NoDupPairs (setPaymentStatus payments freshId c i b).1 := by
  cases hfil : payments.filter (matchesCell c i) with
  | nil =>
    have hres : (setPaymentStatus payments freshId c i b).1
        = payments ++ [⟨freshId, c, i, b⟩] := by
      simp [setPaymentStatus, saveCell, hfil]
    rw [hres]
    unfold NoDupPairs
    rw [pairsOf_append_single]
    refine List.Nodup.append hnd (List.nodup_singleton _) ?_
    intro a ha hb2
    have ha2 : a = (c, i) := by simpa [pairKey] using hb2
    exact pair_not_mem_of_filter_nil payments c i hfil (ha2 ▸ ha)
  | cons e rest =>
    cases hne : e.is_paid != b with
    | false =>
      have hres : (setPaymentStatus payments freshId c i b).1 = payments := by
        simp [setPaymentStatus, saveCell, hfil, hne]
      rw [hres]; exact hnd
    | true =>
      have hres : (setPaymentStatus payments freshId c i b).1
          = payments.map (fun q => if q.id == e.id then { q with is_paid := b } else q) := by
        simp [setPaymentStatus, saveCell, hfil, hne]
      rw [hres]
      unfold NoDupPairs
      rw [pairsOf_update]
      exact hnd

theorem sps_from_stored (l : List LPPayment) (freshId c i : Nat) (b : Bool)
    (h : storedStatus l c i = some b) : setPaymentStatus l freshId c i b = (l, 0) := by
  unfold storedStatus at h
  cases hf : findPayment l c i with
  | none => rw [hf] at h; simp at h
  | some p =>
    rw [hf] at h
    have hb : p.is_paid = b := by simpa using h
    exact sps_noop l freshId c i b p hf hb

theorem saveCell_insert (snapshot db : List LPPayment) (freshId c i : Nat) (b : Bool)
    (hfil : snapshot.filter (matchesCell c i) = []) :
    saveCell snapshot db freshId c i b = (db ++ [⟨freshId, c, i, b⟩], 1) := by
  simp [saveCell, hfil]

theorem saveCell_pairs_cons (snapshot db : List LPPayment) (freshId c i : Nat) (b : Bool)
    (e : LPPayment) (rest : List LPPayment)
    (hfil : snapshot.filter (matchesCell c i) = e :: rest) :
    pairsOf (saveCell snapshot db freshId c i b).1 = pairsOf db := by
  have hres : saveCell snapshot db freshId c i b
      = if e.is_paid != b
        then (db.map (fun p => if p.id == e.id then { p with is_paid := b } else p), 1)
        else (db, 0) := by
    unfold saveCell
    rw [hfil]
  rw [hres]
  cases hne : e.is_paid != b
  · simp
  · rw [if_pos (rfl : true = true)]
    exact pairsOf_update db e.id b

theorem batchSave_nodup (snapshot : List LPPayment) (cells : List (Nat × Nat × Bool)) :
    ∀ (db : List LPPayment) (nid : Nat),
      NoDupPairs db →
      List.Pairwise (fun a b => (a.1, a.2.1) ≠ (b.1, b.2.1)) cells →
      (∀ cl ∈ cells, ((cl.1, cl.2.1) ∈ pairsOf db ↔ (cl.1, cl.2.1) ∈ pairsOf snapshot)) →
      NoDupPairs (batchSave snapshot db nid cells).1 := by
  induction cells with
  | nil =>
    intro db nid hdb _ _
    simpa [batchSave] using hdb
  | cons cl rest ih =>
    intro db nid hdb hpw hsync
    obtain ⟨c, i, b⟩ := cl
    rw [List.pairwise_cons] at hpw
    obtain ⟨hhead, hrest⟩ := hpw
    have hbatch : (batchSave snapshot db nid ((c, i, b) :: rest)).1
        = (batchSave snapshot (saveCell snapshot db nid c i b).1 (nid + 1) rest).1 := by
      simp [batchSave]
    rw [hbatch]
    cases hfil : snapshot.filter (matchesCell c i) with
    | nil =>
      rw [saveCell_insert snapshot db nid c i b hfil]
      have hsnap : (c, i) ∉ pairsOf snapshot := pair_not_mem_of_filter_nil snapshot c i hfil
      have hdbmem : (c, i) ∉ pairsOf db := fun hm =>
        hsnap ((hsync _ (List.mem_cons_self _ _)).mp hm)
      apply ih
      · unfold NoDupPairs
        rw [pairsOf_append_single]
        refine List.Nodup.append hdb (List.nodup_singleton _) ?_
        intro a ha hb2
        have ha2 : a = (c, i) := by simpa [pairKey] using hb2
        exact hdbmem (ha2 ▸ ha)
      · exact hrest
      · intro cl2 hcl2
        have hne : (cl2.1, cl2.2.1) ≠ (c, i) := Ne.symm (hhead cl2 hcl2)
        rw [pairsOf_append_single]
        constructor
        · intro hm
          rcases List.mem_append.mp hm with hm1 | hm2
          · exact (hsync cl2 (List.mem_cons_of_mem _ hcl2)).mp hm1
          · exact absurd (by simpa [pairKey] using hm2) hne
        · intro hm
          exact List.mem_append.mpr (Or.inl ((hsync cl2 (List.mem_cons_of_mem _ hcl2)).mpr hm))
    | cons e rest2 =>
      have hpairs : pairsOf (saveCell snapshot db nid c i b).1 = pairsOf db :=
        saveCell_pairs_cons snapshot db nid c i b e rest2 hfil
      apply ih
      · unfold NoDupPairs
        rw [hpairs]
        exact hdb
      · exact hrest
      · intro cl2 hcl2
        rw [hpairs]
        exact hsync cl2 (List.mem_cons_of_mem _ hcl2)

/-- C4: setPaymentStatus (the per-cell operation the payment-matrix batch
save applies to every cell) is an upsert keyed on (lp_call_id,
investor_id): when the stored is_paid of the cell already equals the new
value it issues no write and leaves the state unchanged; when no row for
the pair exists it inserts exactly one row; when the stored value differs
it updates the existing row in place (one write, same number of rows,
same row keys); after any save the stored value of the cell is the saved
value; starting from a state with at most one row per pair, the save
never creates a second row for a pair - and neither does the batch save
over pairwise-distinct grid cells; and applying the same save twice
issues no write the second time. -/
theorem C4_set_payment_status_upsert :
    (∀ (payments : List LPPayment) (freshId c i : Nat) (b : Bool) (p : LPPayment),
        findPayment payments c i = some p → p.is_paid = b →
          setPaymentStatus payments freshId c i b = (payments, 0))
    ∧ (∀ (payments : List LPPayment) (freshId c i : Nat) (b : Bool),
        findPayment payments c i = none →
          setPaymentStatus payments freshId c i b = (payments ++ [⟨freshId, c, i, b⟩], 1))
    ∧ (∀ (payments : List LPPayment) (freshId c i : Nat) (b : Bool) (p : LPPayment),
        findPayment payments c i = some p → p.is_paid ≠ b →
          setPaymentStatus payments freshId c i b
              = (payments.map (fun q => if q.id == p.id then { q with is_paid := b } else q), 1)
            ∧ (setPaymentStatus payments freshId c i b).1.length = payments.length
            ∧ pairsOf (setPaymentStatus payments freshId c i b).1 = pairsOf payments)
    ∧ (∀ (payments : List LPPayment) (freshId c i : Nat) (b : Bool),
        storedStatus (setPaymentStatus payments freshId c i b).1 c i = some b)
    ∧ (∀ (payments : List LPPayment) (freshId c i : Nat) (b : Bool),
        NoDupPairs payments → NoDupPairs (setPaymentStatus payments freshId c i b).1)
    ∧ (∀ (payments : List LPPayment) (freshId freshId2 c i : Nat) (b : Bool),
        setPaymentStatus (setPaymentStatus payments freshId c i b).1 freshId2 c i b
          = ((setPaymentStatus payments freshId c i b).1, 0))
    ∧ (∀ (db : List LPPayment) (nid : Nat) (cells : List (Nat × Nat × Bool)),
        NoDupPairs db →
        List.Pairwise (fun a b => (a.1, a.2.1) ≠ (b.1, b.2.1)) cells →
        NoDupPairs (batchSave db db nid cells).1) := by
  refine ⟨sps_noop, sps_insert, ?_, sps_stored, sps_nodup, ?_, ?_⟩
  · intro payments freshId c i b p h hb
    have hu := sps_update payments freshId c i b p h hb
    refine ⟨hu, ?_, ?_⟩
    · rw [hu]; simp
    · rw [hu]; exact pairsOf_update payments p.id b
  · intro payments freshId freshId2 c i b
    exact sps_from_stored _ freshId2 c i b (sps_stored payments freshId c i b)
  · intro db nid cells hdb hpw
    exact batchSave_nodup db cells db nid hdb hpw (fun cl _ => Iff.rfl)

/-- Witness for C4 at concrete inputs: a matching saved value issues no
write; a missing row inserts exactly one; an update keeps the row keys;
uniqueness is preserved by the single save and by a two-cell batch. -/
theorem C4_set_payment_status_upsert_witness :
    setPaymentStatus [⟨1, 1, 1, true⟩] 5 1 1 true = ([⟨1, 1, 1, true⟩], 0)
      ∧ setPaymentStatus [⟨1, 1, 1, true⟩] 5 2 2 true
          = ([⟨1, 1, 1, true⟩, ⟨5, 2, 2, true⟩], 1)
      ∧ pairsOf (setPaymentStatus [⟨1, 1, 1, true⟩] 5 1 1 false).1
          = pairsOf [⟨1, 1, 1, true⟩]
      ∧ NoDupPairs (setPaymentStatus [⟨1, 1, 1, true⟩] 5 1 1 false).1
      ∧ NoDupPairs
          (batchSave [⟨1, 1, 1, true⟩] [⟨1, 1, 1, true⟩] 5 [(1, 1, false), (2, 1, true)]).1 :=
  ⟨C4_set_payment_status_upsert.1 _ 5 1 1 true ⟨1, 1, 1, true⟩ (by decide) rfl,
    C4_set_payment_status_upsert.2.1 _ 5 2 2 true (by decide),
    (C4_set_payment_status_upsert.2.2.1 _ 5 1 1 false ⟨1, 1, 1, true⟩
      (by decide) (by decide)).2.2,
    C4_set_payment_status_upsert.2.2.2.2.1 _ 5 1 1 false (by decide),
    C4_set_payment_status_upsert.2.2.2.2.2.2 _ 5 [(1, 1, false), (2, 1, true)]
      (by decide) (by decide)⟩

/-- Metric fields carried by a quarterly-report write: the payload of
src/app.py lines 2060-2064 and 1464-1468, minus the natural key. -/
structure ReportFields where
  report_date : String
  nav : ℚ
  tvpi : ℚ
  dpi : ℚ
  rvpi : ℚ
  irr : ℚ
  notes : String
deriving DecidableEq

/-- Whether a stored report row carries the natural key (fund_id, year,
quarter). -/
def reportKey (fid y q : Nat) (r : QuarterlyReport) : Bool :=
  r.fund_id == fid && r.year == y && r.quarter == q

/-- Overwrite the metric fields of a row, keeping its id and natural key. -/
def applyReportFields (r : QuarterlyReport) (f : ReportFields) : QuarterlyReport :=
  { r with
    report_date := f.report_date,
    nav := f.nav,
    tvpi := f.tvpi,
    dpi := f.dpi,
    rvpi := f.rvpi,
    irr := f.irr,
    notes := f.notes }

/-- Modelled from the spec: the store-side resolution of the
quarterly-report write. src/app.py (lines 2060-2064 and 1464-1468) issues
a generic store upsert of the row fields, and the quarterly_reports
schema - whose unique(fund_id, year, quarter) constraint makes that write
an upsert on the natural key (spec sections 3, 4.4 and the section 6
schema) - lives in the hosted database, not under src/. On a key match
every stored row of that period is overwritten with the new fields;
otherwise a single new row is inserted. -/
def upsertReport (reports : List QuarterlyReport) (freshId fid y q : Nat)
    (f : ReportFields) : List QuarterlyReport :=
  if reports.any (reportKey fid y q) then
    reports.map (fun r => if reportKey fid y q r then applyReportFields r f else r)
  else
    reports ++ [⟨freshId, fid, y, q, f.report_date, f.nav, f.tvpi, f.dpi,
      f.rvpi, f.irr, f.notes⟩]

theorem reportKey_applyFields (fid y q : Nat) (r : QuarterlyReport) (f : ReportFields) :
    reportKey fid y q (applyReportFields r f) = reportKey fid y q r := rfl

theorem reportKey_updater (fid y q : Nat) (f : ReportFields) (r : QuarterlyReport) :
    reportKey fid y q (if reportKey fid y q r then applyReportFields r f else r)
      = reportKey fid y q r := by
  cases h : reportKey fid y q r <;> simp [h, reportKey_applyFields]

theorem upsert_filter_key (reports : List QuarterlyReport) (freshId fid y q : Nat)
    (f : ReportFields) :
    (upsertReport reports freshId fid y q f).filter (reportKey fid y q)
      = if reports.any (reportKey fid y q)
        then (reports.filter (reportKey fid y q)).map (fun r => applyReportFields r f)
        else [⟨freshId, fid, y, q, f.report_date, f.nav, f.tvpi, f.dpi,
          f.rvpi, f.irr, f.notes⟩] := by
  unfold upsertReport
  cases hany : reports.any (reportKey fid y q)
  · rw [if_neg (by simp), if_neg (by simp)]
    rw [List.filter_append]
    have hnil : reports.filter (reportKey fid y q) = [] := by
      rw [List.filter_eq_nil_iff]
      intro r hr hkr
      have htr := List.any_eq_true.mpr ⟨r, hr, hkr⟩
      rw [hany] at htr
      exact absurd htr (by simp)
    rw [hnil]
    simp [reportKey]
  · rw [if_pos rfl, if_pos rfl]
    rw [List.filter_map]
    have hcomp : (reportKey fid y q ∘ fun r =>
        if reportKey fid y q r then applyReportFields r f else r) = reportKey fid y q :=
      funext (reportKey_updater fid y q f)
    rw [hcomp]
    apply List.map_congr_left
    intro r hr
    have : reportKey fid y q r = true := (List.mem_filter.mp hr).2
    simp [this]

/-- C5: writing a quarterly report is an upsert on the natural key
(fund_id, year, quarter): two report writes with the same key and
different metrics, starting from a state with at most one row for that
period, leave exactly one QuarterlyReport row for the period and that row
carries the metrics of the later write. -/
theorem C5_quarterly_report_upsert :
    ∀ (reports : List QuarterlyReport) (freshId freshId2 fid y q : Nat)
      (f1 f2 : ReportFields),
      (reports.filter (reportKey fid y q)).length ≤ 1 →
        ((upsertReport (upsertReport reports freshId fid y q f1) freshId2 fid y q
            f2).filter (reportKey fid y q)).length = 1
          ∧ ∀ r ∈ (upsertReport (upsertReport reports freshId fid y q f1) freshId2 fid y q
                f2).filter (reportKey fid y q),
              r.report_date = f2.report_date ∧ r.nav = f2.nav ∧ r.tvpi = f2.tvpi
                ∧ r.dpi = f2.dpi ∧ r.rvpi = f2.rvpi ∧ r.irr = f2.irr
                ∧ r.notes = f2.notes := by
  intro reports freshId freshId2 fid y q f1 f2 hlen
  have h1 : ((upsertReport reports freshId fid y q f1).filter (reportKey fid y q)).length
      = 1 := by
    rw [upsert_filter_key]
    cases hany : reports.any (reportKey fid y q)
    · simp
    · rw [if_pos rfl, List.length_map]
      have hne : reports.filter (reportKey fid y q) ≠ [] := by
        intro hnil
        rw [List.any_eq_true] at hany
        obtain ⟨x, hx, hkx⟩ := hany
        exact (List.filter_eq_nil_iff.mp hnil x hx) hkx
      have hpos : 0 < (reports.filter (reportKey fid y q)).length :=
        List.length_pos.mpr hne
      omega
  have hany1 : (upsertReport reports freshId fid y q f1).any (reportKey fid y q)
      = true := by
    rw [List.any_eq_true]
    have hne : (upsertReport reports freshId fid y q f1).filter (reportKey fid y q)
        ≠ [] := by
      intro h0
      rw [h0] at h1
      simp at h1
    obtain ⟨x, hx⟩ := List.exists_mem_of_ne_nil _ hne
    have hm := List.mem_filter.mp hx
    exact ⟨x, hm.1, hm.2⟩
  have h2 : (upsertReport (upsertReport reports freshId fid y q f1) freshId2 fid y q
        f2).filter (reportKey fid y q)
      = ((upsertReport reports freshId fid y q f1).filter (reportKey fid y q)).map
          (fun r => applyReportFields r f2) := by
    rw [upsert_filter_key, if_pos hany1]
  constructor
  · rw [h2, List.length_map, h1]
  · intro r hr
    rw [h2] at hr
    obtain ⟨r2, _, rfl⟩ := List.mem_map.mp hr
    exact ⟨rfl, rfl, rfl, rfl, rfl, rfl, rfl⟩

/-- Witness for C5: starting from an empty report table (at most one row
for the period holds trivially), two writes for fund 7, 2024 Q1 leave
exactly one row for the period. -/
theorem C5_quarterly_report_upsert_witness :
    (((([] : List QuarterlyReport).filter (reportKey 7 2024 1)).length ≤ 1)
      ∧ ((upsertReport (upsertReport ([] : List QuarterlyReport) 1 7 2024 1
            ⟨"2024-06-30", 1, 1, 1, 1, 1, "a"⟩) 2 7 2024 1
            ⟨"2024-09-30", 2, 2, 2, 2, 2, "b"⟩).filter (reportKey 7 2024 1)).length = 1) :=
  ⟨by decide,
    (C5_quarterly_report_upsert [] 1 2 7 2024 1 ⟨"2024-06-30", 1, 1, 1, 1, 1, "a"⟩
      ⟨"2024-09-30", 2, 2, 2, 2, 2, "b"⟩ (by decide)).1⟩

end Octo
